import Mathlib

/-!
Shallow embedding of the go-tiled rendering package
(`render/render_objects.go` and the `TilesetCache` file), together with
theorems checking the repository's specification against it.

Modelling conventions:
* `ebiten` images and the images produced by decode / sub-image / flip
  operations are represented by the free term algebra `Img`, so two images
  are equal exactly when they were built by the same sequence of operations.
* `float64` quantities (object coordinates, sizes, matrix entries) are
  represented by `ℚ`; `uint32` values by `ℕ` reduced with `u32` (mod 2^32)
  where the Go code performs 32-bit arithmetic.
* File opening plus `image.Decode` is one oracle `Env.decodeFile`; every
  open is logged in an `opens` trace so that "re-attempts the decode" and
  "performs no I/O" are observable.  `cos`/`sin` of an object's rotation are
  supplied by the oracles `Env.cosDeg`/`Env.sinDeg`.
* Collaborators excluded from the rendered sources (the map model's
  `GetTileRect`, `GetFileFullPath`, `GetTilesetTile`, `TileGIDToTile`,
  `IsNil`) are function-valued fields of the model, mirroring the spec's
  "consumed here as a given" contracts.
-/

/-- Wraparound mod 2^32, for Go `uint32` arithmetic. -/
def u32 (n : ℕ) : ℕ := n % 4294967296

/-- An axis-aligned rectangle (Go `image.Rectangle`). -/
structure Rect where
  x0 : ℤ
  y0 : ℤ
  x1 : ℤ
  y1 : ℤ
deriving DecidableEq, Repr

/-- Images as the free algebra of the image operations used by the renderer:
decoding a file, `ebiten.NewImageFromImage`, `SubImage`, and the `imaging`
flips/rotation. -/
inductive Img where
  | decoded (path : String)
  | fromImage (i : Img)
  | sub (i : Img) (r : Rect)
  | flipH (i : Img)
  | flipV (i : Img)
  | rotate270 (i : Img)
deriving DecidableEq, Repr

/-- The error values produced by the render package (`ErrUnsupportedOrientation`,
`ErrUnsupportedRenderOrder`, `ErrOutOfBounds`), plus wrapped collaborator
errors: `ioError` wraps an open/decode failure unchanged, `tileNotFound` is
the `"Tile image not found in tileset"` error, and `extError` stands for an
error returned by an excluded map-model collaborator. -/
inductive RErr where
  | unsupportedOrientation
  | unsupportedRenderOrder
  | outOfBounds
  | ioError (e : String)
  | tileNotFound (id : ℕ)
  | extError (e : String)
deriving DecidableEq, Repr

/-- A tileset tile record (`tiled.TilesetTile`): only its image source is
consumed by the renderer. -/
structure TilesetTile where
  imageSource : String
deriving DecidableEq, Repr

/-- Model of `tiled.Tileset` as consumed by the renderer.  `image` is `some src` for a
shared-image tileset and `none` for a per-tile-image tileset.  The
rectangle geometry, path resolution and per-tile lookup live in the excluded
map-model component and are therefore function-valued fields. -/
structure Tileset where
  name : String
  firstGID : ℕ
  tileCount : ℕ
  image : Option String
  getTileRect : ℕ → Rect
  getFileFullPath : String → String
  getTilesetTile : ℕ → Except RErr TilesetTile

/-- Model of `tiled.LayerTile`: a placed tile reference.  `isNilTile` models the map
model's `IsNil()` (GID zero / empty cell). -/
structure LayerTile where
  id : ℕ
  tileset : Tileset
  horizontalFlip : Bool
  verticalFlip : Bool
  diagonalFlip : Bool
  isNilTile : Bool

/-- Model of `tiled.Object`: the fields read by the renderer. -/
structure Object where
  x : ℚ
  y : ℚ
  width : ℚ
  height : ℚ
  rotation : ℚ
  gid : ℕ
  visible : Bool
deriving DecidableEq, Repr

/-- Model of `tiled.ObjectGroup`: the fields read by the renderer. -/
structure ObjectGroup where
  objects : List Object
  opacity : ℚ
  visible : Bool

/-- Model of `tiled.Layer`: the fields read by the renderer. -/
structure Layer where
  tiles : List LayerTile
  opacity : ℚ
  visible : Bool

/-- Model of `tiled.Group`: the fields read by the renderer (named `TGroup` because
`Group` is taken by the algebra library). -/
structure TGroup where
  layers : List Layer
  objectGroups : List ObjectGroup
  visible : Bool

/-- Model of `tiled.Map` as consumed by the renderer.  `tileGIDToTile` is the excluded
map model's `TileGIDToTile`. -/
structure RMap where
  orientation : String
  renderOrder : String
  width : ℤ
  height : ℤ
  tileWidth : ℤ
  tileHeight : ℤ
  layers : List Layer
  objectGroups : List ObjectGroup
  groups : List TGroup
  tileGIDToTile : ℕ → Except RErr LayerTile

/-- The environment of oracles standing for the excluded collaborators:
combined file-open plus image-decode, the natural size of a decoded image
(`Bounds().Size()`), and cosine/sine of `rotation * π / 180`. -/
structure Env where
  decodeFile : String → Except String Img
  imgSize : Img → ℤ × ℤ
  cosDeg : ℚ → ℚ
  sinDeg : ℚ → ℚ

/-- Model of `ebiten.GeoM`: an affine matrix `[[a b tx] [c d ty]]`. -/
structure GeoM where
  a : ℚ
  b : ℚ
  c : ℚ
  d : ℚ
  tx : ℚ
  ty : ℚ
deriving DecidableEq, Repr

/-- The zero `ebiten.GeoM{}` value, which is the identity matrix. -/
def GeoM.identity : GeoM := ⟨1, 0, 0, 1, 0, 0⟩

/-- Model of `GeoM.Translate`: post-composes a translation (`g' = T ∘ g`). -/
def GeoM.translate (g : GeoM) (dx dy : ℚ) : GeoM :=
  { g with tx := g.tx + dx, ty := g.ty + dy }

/-- Model of `GeoM.Scale`: post-composes a scale (`g' = S ∘ g`). -/
def GeoM.scale (g : GeoM) (sx sy : ℚ) : GeoM :=
  ⟨g.a * sx, g.b * sx, g.c * sy, g.d * sy, g.tx * sx, g.ty * sy⟩

/-- Model of `GeoM.Rotate`: post-composes a rotation (`g' = R ∘ g`), with the cosine
and sine of the angle supplied explicitly. -/
def GeoM.rotate (g : GeoM) (co si : ℚ) : GeoM :=
  ⟨co * g.a - si * g.c, co * g.b - si * g.d,
   si * g.a + co * g.c, si * g.b + co * g.d,
   co * g.tx - si * g.ty, si * g.tx + co * g.ty⟩

/-- Model of `GeoM.Apply`: the affine action on a point. -/
def GeoM.apply (g : GeoM) (p : ℚ × ℚ) : ℚ × ℚ :=
  (g.a * p.1 + g.b * p.2 + g.tx, g.c * p.1 + g.d * p.2 + g.ty)

/-- Model of `OrthogonalRendererEngine.GetFinalImageSize`. -/
def GetFinalImageSize (m : RMap) : ℤ × ℤ :=
  (m.width * m.tileWidth, m.height * m.tileHeight)

/-- Model of `OrthogonalRendererEngine.RotateTileImage`: conditional diagonal flip
(flip-horizontal of the 270° rotation), then conditional horizontal flip,
then conditional vertical flip. -/
def RotateTileImage (tile : LayerTile) (img : Img) : Img :=
  let timg := img
  let timg := if tile.diagonalFlip then Img.flipH (Img.rotate270 timg) else timg
  let timg := if tile.horizontalFlip then Img.flipH timg else timg
  let timg := if tile.verticalFlip then Img.flipV timg else timg
  timg

/-- Model of `OrthogonalRendererEngine.GetTilePosition`: translate to
`(x*tileWidth, y*tileHeight)`, then scale by
`((x+1)*tileWidth, (y+1)*tileHeight)`. -/
def GetTilePosition (m : RMap) (x y : ℤ) : GeoM :=
  (GeoM.identity.translate ((x * m.tileWidth : ℤ) : ℚ) ((y * m.tileHeight : ℤ) : ℚ)).scale
    (((x + 1) * m.tileWidth : ℤ) : ℚ) (((y + 1) * m.tileHeight : ℤ) : ℚ)

/-- Spec-side pure translation on points, for comparison with the engine's
cell transform. -/
def translatePt (dx dy : ℚ) (p : ℚ × ℚ) : ℚ × ℚ := (p.1 + dx, p.2 + dy)

/-- Spec-side pure axis scale on points, for comparison with the engine's
cell transform. -/
def scalePt (sx sy : ℚ) (p : ℚ × ℚ) : ℚ × ℚ := (sx * p.1, sy * p.2)

/-- Spec-side orientation transform, written following the spec's words:
"applies, in fixed order, diagonal flip (implemented as flip-horizontal
after a 270° rotation), then horizontal flip, then vertical flip, each
conditionally on the tile's respective flag". -/
def orientTileSpec (tile : LayerTile) (img : Img) : Img :=
  (fun i => if tile.verticalFlip then Img.flipV i else i)
    ((fun i => if tile.horizontalFlip then Img.flipH i else i)
      ((fun i => if tile.diagonalFlip then Img.flipH (Img.rotate270 i) else i) img))

/-- One `DrawImage` call recorded on the canvas: the source image, the
geometry matrix, and the alpha from the layer's opacity (`ColorScale.SetA`). -/
structure DrawOp where
  img : Img
  geom : GeoM
  alpha : ℚ
deriving DecidableEq, Repr

/-- The renderer's mutable state: the tile cache keyed by `uint32` global ID
(`tileCache`), the sequence of draw calls on the `Result` canvas (`draws`),
and the trace of file opens (`opens`). -/
structure RState where
  tileCache : ℕ → Option Img
  draws : List DrawOp
  opens : List String

/-- Point update of a cache function (one Go map store). -/
def upd (c : ℕ → Option Img) (k : ℕ) (v : Img) : ℕ → Option Img :=
  fun j => if j = k then some v else c j

/-- The effect on a cache of a Go `for i := 0; i < n; i++` loop storing
`vf i` at key `kf i`. -/
def cacheFold (c0 : ℕ → Option Img) (kf : ℕ → ℕ) (vf : ℕ → Img) (n : ℕ) :
    ℕ → Option Img :=
  (List.range n).foldl (fun c i => upd c (kf i) (vf i)) c0

/-- Model of `Renderer.getTileImageFromTile`: the per-tile-image strategy — look up
the tileset tile, open and decode its own image, cache it under
`FirstGID + ID`, and return it oriented. -/
def getTileImageFromTile (env : Env) (s : RState) (tile : LayerTile) :
    RState × Except RErr Img :=
  match tile.tileset.getTilesetTile tile.id with
  | Except.error e => (s, Except.error e)
  | Except.ok tsTile =>
    let path := tile.tileset.getFileFullPath tsTile.imageSource
    let s1 : RState := { s with opens := s.opens ++ [path] }
    match env.decodeFile path with
    | Except.error e => (s1, Except.error (RErr.ioError e))
    | Except.ok img =>
      let timg := Img.fromImage img
      let s2 : RState :=
        { s1 with tileCache := upd s1.tileCache (u32 (tile.tileset.firstGID + tile.id)) timg }
      (s2, Except.ok (RotateTileImage tile timg))

/-- Model of `Renderer.getTileImageFromTileset`: the shared-image strategy — open and
decode the tileset's single source image, slice and cache all `TileCount`
tiles under `i + FirstGID`, and return the requested one oriented (or the
"Tile image not found in tileset" error when the local index is outside the
loop range). -/
def getTileImageFromTileset (env : Env) (s : RState) (tile : LayerTile) :
    RState × Except RErr Img :=
  match tile.tileset.image with
  | none => (s, Except.error (RErr.ioError "nil tileset image"))
  | some src =>
    let path := tile.tileset.getFileFullPath src
    let s1 : RState := { s with opens := s.opens ++ [path] }
    match env.decodeFile path with
    | Except.error e => (s1, Except.error (RErr.ioError e))
    | Except.ok img =>
      let eimg := Img.fromImage img
      let n := u32 tile.tileset.tileCount
      let newCache := cacheFold s1.tileCache (fun i => u32 (i + tile.tileset.firstGID))
        (fun i => Img.sub eimg (tile.tileset.getTileRect i)) n
      let s2 : RState := { s1 with tileCache := newCache }
      if tile.id < n then
        (s2, Except.ok (RotateTileImage tile
          (Img.fromImage (Img.sub eimg (tile.tileset.getTileRect tile.id)))))
      else
        (s2, Except.error (RErr.tileNotFound tile.id))

/-- Model of `Renderer.getTileImage`: the orchestrating entry point — cache lookup on
the `uint32` global ID, else dispatch on whether the tileset declares a
shared image. -/
def getTileImage (env : Env) (s : RState) (tile : LayerTile) :
    RState × Except RErr Img :=
  match s.tileCache (u32 (tile.tileset.firstGID + tile.id)) with
  | some timg => (s, Except.ok (RotateTileImage tile (Img.fromImage timg)))
  | none =>
    match tile.tileset.image with
    | none => getTileImageFromTile env s tile
    | some _ => getTileImageFromTileset env s tile

/-- The `TilesetCache` component's state: a map from tileset name to that
tileset's local-index-keyed slice cache, plus the open trace. -/
structure TilesetCacheState where
  cache : String → Option (ℕ → Option Img)
  opens : List String

/-- Model of `TilesetCache.cacheTileset`: open and decode the tileset's source image,
slice it into `TileCount` sub-images keyed by local index, and store the
slice map under the tileset's name. -/
def cacheTileset (env : Env) (t : TilesetCacheState) (ts : Tileset) :
    TilesetCacheState × Except RErr Unit :=
  match ts.image with
  | none => (t, Except.error (RErr.ioError "nil tileset image"))
  | some src =>
    let path := ts.getFileFullPath src
    let t1 : TilesetCacheState := { t with opens := t.opens ++ [path] }
    match env.decodeFile path with
    | Except.error e => (t1, Except.error (RErr.ioError e))
    | Except.ok img =>
      let eimg := Img.fromImage img
      let inner := cacheFold (fun _ => none) (fun i => i)
        (fun i => Img.sub eimg (ts.getTileRect i)) (u32 ts.tileCount)
      ({ t1 with cache := fun n => if n = ts.name then some inner else t1.cache n },
        Except.ok ())

/-- Model of `TilesetCache.GetTileImage`: look the tileset up by name, caching it on a
miss, then return the inner map's entry for the tile's local index — a Go
map read that yields the zero value `nil` (here `none`) with no error when
the index is absent. -/
def tcGetTileImage (env : Env) (t : TilesetCacheState) (tile : LayerTile) :
    TilesetCacheState × Except RErr (Option Img) :=
  match t.cache tile.tileset.name with
  | some cached => (t, Except.ok (cached tile.id))
  | none =>
    match cacheTileset env t tile.tileset with
    | (t1, Except.error e) => (t1, Except.error e)
    | (t1, Except.ok ()) =>
      (t1, Except.ok (((t1.cache tile.tileset.name).getD (fun _ => none)) tile.id))

/-- Go `int(f)` on a `float64`: truncation toward zero. -/
def goInt (q : ℚ) : ℤ := if 0 ≤ q then ⌊q⌋ else ⌈q⌉

/-- The comparator passed to `utils.SortAnySlice` in `_renderObjectGroup`:
`a` before `b` when `a.Y < b.Y`, ties broken by `a.X < b.X`. -/
def objLess (a b : Object) : Bool :=
  if a.y = b.y then a.x < b.x else a.y < b.y

/-- Stable insertion of `a` into a list sorted by the strict comparator
`less`: walk past exactly the elements strictly less than `a`, so `a` lands
before the first element not less than it (ties keep the earlier element —
here the inserted one, which originated earlier in the input — first). -/
def insertOrdered {α : Type} (less : α → α → Bool) (a : α) : List α → List α
  | [] => [a]
  | b :: l => if less b a then b :: insertOrdered less a l else a :: b :: l

/-- Modelled from the spec: `utils.SortAnySlice` (from the repository's
`internal/utils` package, which is not among the rendered sources) is a
stable sort of the slice by the provided strict less-than comparator — `a`
precedes `b` in the result iff `less a b`, or neither compares less and `a`
preceded `b` in the input.  Realized as stable insertion sort. -/
def SortAnySlice {α : Type} (less : α → α → Bool) : List α → List α
  | [] => []
  | a :: l => insertOrdered less a (SortAnySlice less l)

/-- The non-strict painter order induced by the object comparator: `a` may
precede `b` when `b` is not strictly less than `a` — i.e. ascending Y, ties
by ascending X. -/
def painterLE (a b : Object) : Prop := objLess b a = false

/-- The sort performed by `_renderObjectGroup` on a group's objects. -/
def sortObjects (l : List Object) : List Object := SortAnySlice objLess l

/-- The draw geometry built by `Renderer.renderOneObject`: an optional scale
from the image's natural size to the object's declared size, then an
optional rotation by the object's rotation — built on `ebiten.GeoM{}` with
no translation step. -/
def objectGeoM (env : Env) (o : Object) (srcW srcH : ℤ) : GeoM :=
  let geom := GeoM.identity
  let dstW := goInt o.width
  let dstH := goInt o.height
  let geom :=
    if srcW = dstW ∧ srcH = dstH then geom
    else geom.scale ((dstW : ℚ) / (srcW : ℚ)) ((dstH : ℚ) / (srcH : ℚ))
  let geom :=
    if o.rotation = 0 then geom
    else geom.rotate (env.cosDeg o.rotation) (env.sinDeg o.rotation)
  geom

/-- Model of `Renderer.renderOneObject`: skip invisible objects and objects with
`GID == 0`; otherwise resolve the tile image through `TileGIDToTile` and
`getTileImage`, build the scale/rotation geometry, and draw with the
object group's opacity as alpha. -/
def renderOneObject (m : RMap) (env : Env) (s : RState) (layer : ObjectGroup)
    (o : Object) : RState × Except RErr Unit :=
  if o.visible = false then (s, Except.ok ())
  else if o.gid = 0 then (s, Except.ok ())
  else
    match m.tileGIDToTile o.gid with
    | Except.error e => (s, Except.error e)
    | Except.ok tile =>
      match getTileImage env s tile with
      | (s1, Except.error e) => (s1, Except.error e)
      | (s1, Except.ok img) =>
        let sz := env.imgSize img
        let geom := objectGeoM env o sz.1 sz.2
        ({ s1 with draws := s1.draws ++ [⟨img, geom, layer.opacity⟩] }, Except.ok ())

/-- The loop of `_renderObjectGroup` over the sorted objects, stopping at the
first error. -/
def renderObjects (m : RMap) (env : Env) (layer : ObjectGroup) :
    RState → List Object → RState × Except RErr Unit
  | s, [] => (s, Except.ok ())
  | s, o :: rest =>
    match renderOneObject m env s layer o with
    | (s1, Except.error e) => (s1, Except.error e)
    | (s1, Except.ok ()) => renderObjects m env layer s1 rest

/-- Model of `Renderer._renderObjectGroup`: sort the group's objects from left-top to
right-down, then render them in order. -/
def renderObjectGroupImpl (m : RMap) (env : Env) (s : RState)
    (objectGroup : ObjectGroup) : RState × Except RErr Unit :=
  renderObjects m env objectGroup s (SortAnySlice objLess objectGroup.objects)

/-- A placeholder tileset for out-of-range `getD` reads (never reached when
a layer carries `width*height` tiles, as the map model guarantees). -/
def emptyTileset : Tileset :=
  { name := "", firstGID := 0, tileCount := 0, image := none,
    getTileRect := fun _ => ⟨0, 0, 0, 0⟩,
    getFileFullPath := fun p => p,
    getTilesetTile := fun _ => Except.error (RErr.extError "no tileset tile") }

/-- A nil layer tile (an empty cell). -/
def nilTile : LayerTile :=
  { id := 0, tileset := emptyTileset, horizontalFlip := false,
    verticalFlip := false, diagonalFlip := false, isNilTile := true }

/-- The right-down traversal order of grid cells: `(x, y)` pairs, `y` outer,
`x` inner. -/
def cellList (w h : ℕ) : List (ℕ × ℕ) :=
  (List.range h).flatMap (fun y => (List.range w).map (fun x => (x, y)))

/-- The cell loop of `_renderLayer`: `i` is the running tile index, advanced
for every visited cell; nil cells are skipped, other cells are resolved and
drawn at `GetTilePosition x y` with the layer's opacity as alpha. -/
def renderCells (m : RMap) (env : Env) (layer : Layer) :
    RState → ℕ → List (ℕ × ℕ) → RState × Except RErr Unit
  | s, _, [] => (s, Except.ok ())
  | s, i, (x, y) :: rest =>
    let tile := layer.tiles.getD i nilTile
    if tile.isNilTile then renderCells m env layer s (i + 1) rest
    else
      match getTileImage env s tile with
      | (s1, Except.error e) => (s1, Except.error e)
      | (s1, Except.ok img) =>
        let geom := GetTilePosition m (x : ℤ) (y : ℤ)
        let s2 : RState := { s1 with draws := s1.draws ++ [⟨img, geom, layer.opacity⟩] }
        renderCells m env layer s2 (i + 1) rest

/-- Model of `Renderer._renderLayer`: only the empty and `"right-down"` render orders
are supported; traverse the grid right-down, drawing every non-nil cell. -/
def renderLayerImpl (m : RMap) (env : Env) (s : RState) (layer : Layer) :
    RState × Except RErr Unit :=
  if m.renderOrder = "" ∨ m.renderOrder = "right-down" then
    renderCells m env layer s 0 (cellList m.width.toNat m.height.toNat)
  else (s, Except.error RErr.unsupportedRenderOrder)

/-- The layer loop of `_renderGroup`: render the group's visible layers in
order, stopping at the first error. -/
def renderGroupLayersLoop (m : RMap) (env : Env) :
    RState → List Layer → RState × Except RErr Unit
  | s, [] => (s, Except.ok ())
  | s, l :: rest =>
    if l.visible = false then renderGroupLayersLoop m env s rest
    else
      match renderLayerImpl m env s l with
      | (s1, Except.error e) => (s1, Except.error e)
      | (s1, Except.ok ()) => renderGroupLayersLoop m env s1 rest

/-- The object-group loop of `_renderGroup`: render the group's visible
object groups in order, stopping at the first error. -/
def renderGroupObjectGroupsLoop (m : RMap) (env : Env) :
    RState → List ObjectGroup → RState × Except RErr Unit
  | s, [] => (s, Except.ok ())
  | s, og :: rest =>
    if og.visible = false then renderGroupObjectGroupsLoop m env s rest
    else
      match renderObjectGroupImpl m env s og with
      | (s1, Except.error e) => (s1, Except.error e)
      | (s1, Except.ok ()) => renderGroupObjectGroupsLoop m env s1 rest

/-- Model of `Renderer._renderGroup`: visible child layers first, then visible child
object groups. -/
def renderGroupImpl (m : RMap) (env : Env) (s : RState) (group : TGroup) :
    RState × Except RErr Unit :=
  match renderGroupLayersLoop m env s group.layers with
  | (s1, Except.error e) => (s1, Except.error e)
  | (s1, Except.ok ()) => renderGroupObjectGroupsLoop m env s1 group.objectGroups

/-- A placeholder layer for `getD` after a passed bounds check. -/
def emptyLayer : Layer := { tiles := [], opacity := 1, visible := true }

/-- A placeholder object group for `getD` after a passed bounds check. -/
def emptyObjectGroup : ObjectGroup := { objects := [], opacity := 1, visible := true }

/-- A placeholder group for `getD` after a passed bounds check. -/
def emptyTGroup : TGroup := { layers := [], objectGroups := [], visible := true }

/-- Model of `Renderer.RenderLayer`: bounds-check the layer index, then render. -/
def RenderLayer (m : RMap) (env : Env) (s : RState) (id : ℕ) :
    RState × Except RErr Unit :=
  if m.layers.length ≤ id then (s, Except.error RErr.outOfBounds)
  else renderLayerImpl m env s (m.layers.getD id emptyLayer)

/-- Model of `Renderer.RenderGroup`: bounds-check the group index, then render. -/
def RenderGroup (m : RMap) (env : Env) (s : RState) (groupID : ℕ) :
    RState × Except RErr Unit :=
  if m.groups.length ≤ groupID then (s, Except.error RErr.outOfBounds)
  else renderGroupImpl m env s (m.groups.getD groupID emptyTGroup)

/-- Model of `Renderer.RenderGroupLayer`: bounds-check the group index, then the layer
index within the group, then render. -/
def RenderGroupLayer (m : RMap) (env : Env) (s : RState) (groupID layerID : ℕ) :
    RState × Except RErr Unit :=
  if m.groups.length ≤ groupID then (s, Except.error RErr.outOfBounds)
  else if (m.groups.getD groupID emptyTGroup).layers.length ≤ layerID then
    (s, Except.error RErr.outOfBounds)
  else renderLayerImpl m env s
    ((m.groups.getD groupID emptyTGroup).layers.getD layerID emptyLayer)

/-- Model of `Renderer.RenderObjectGroup`: bounds-check the object-group index, then
render. -/
def RenderObjectGroup (m : RMap) (env : Env) (s : RState) (i : ℕ) :
    RState × Except RErr Unit :=
  if m.objectGroups.length ≤ i then (s, Except.error RErr.outOfBounds)
  else renderObjectGroupImpl m env s (m.objectGroups.getD i emptyObjectGroup)

/-- Model of `Renderer.RenderGroupObjectGroup`: bounds-check the group index, then the
object-group index within the group, then render. -/
def RenderGroupObjectGroup (m : RMap) (env : Env) (s : RState)
    (groupID objectGroupID : ℕ) : RState × Except RErr Unit :=
  if m.groups.length ≤ groupID then (s, Except.error RErr.outOfBounds)
  else if (m.groups.getD groupID emptyTGroup).objectGroups.length ≤ objectGroupID then
    (s, Except.error RErr.outOfBounds)
  else renderObjectGroupImpl m env s
    ((m.groups.getD groupID emptyTGroup).objectGroups.getD objectGroupID emptyObjectGroup)

/-- The model of a constructed `Renderer`: its map, paired at construction
with the fresh `RState` (empty tile cache, canvas allocated at the engine's
final size, no draws, no opens). -/
structure Renderer where
  m : RMap
  canvasSize : ℤ × ℤ

/-- Model of `NewRendererWithFileSystem`: only the orthogonal orientation constructs;
any other orientation fails with `ErrUnsupportedOrientation`.  On success the
engine is initialized and `Clear` allocates the canvas; the initial state has
an empty tile cache and empty draw and open traces. -/
def NewRendererWithFileSystem (m : RMap) : Except RErr (Renderer × RState) :=
  if m.orientation = "orthogonal" then
    Except.ok ({ m := m, canvasSize := GetFinalImageSize m },
      { tileCache := fun _ => none, draws := [], opens := [] })
  else Except.error RErr.unsupportedOrientation

/-- Model of `NewRenderer`: delegates to `NewRendererWithFileSystem` with a nil file
system. -/
def NewRenderer (m : RMap) : Except RErr (Renderer × RState) :=
  NewRendererWithFileSystem m

/-- A concrete orthogonal 2×2 map with 16×16 tiles, for concrete instances. -/
def mapOrtho : RMap :=
  { orientation := "orthogonal", renderOrder := "", width := 2, height := 2,
    tileWidth := 16, tileHeight := 16, layers := [], objectGroups := [],
    groups := [], tileGIDToTile := fun _ => Except.error (RErr.extError "no tile") }

/-- The same map declared isometric. -/
def mapIso : RMap := { mapOrtho with orientation := "isometric" }

/-- A concrete environment whose decodes always succeed. -/
def env0 : Env :=
  { decodeFile := fun p => Except.ok (Img.decoded p),
    imgSize := fun _ => (16, 16), cosDeg := fun _ => 1, sinDeg := fun _ => 0 }

/-- A concrete environment whose decodes always fail. -/
def envFail : Env := { env0 with decodeFile := fun _ => Except.error "decode failure" }

/-- A fresh renderer state. -/
def s0 : RState := { tileCache := fun _ => none, draws := [], opens := [] }

/-- A fresh tileset-cache state. -/
def tc0 : TilesetCacheState := { cache := fun _ => none, opens := [] }

/-- A concrete shared-image tileset with two 16×16 tiles and first GID 1. -/
def ts2 : Tileset :=
  { name := "ts", firstGID := 1, tileCount := 2, image := some "tiles.png",
    getTileRect := fun i => ⟨16 * (i : ℤ), 0, 16 * (i : ℤ) + 16, 16⟩,
    getFileFullPath := fun p => p,
    getTilesetTile := fun _ => Except.error (RErr.extError "no tileset tile") }

/-- A concrete placed tile: local index 0 of `ts2`, no flips. -/
def tileA : LayerTile :=
  { id := 0, tileset := ts2, horizontalFlip := false, verticalFlip := false,
    diagonalFlip := false, isNilTile := false }

/-- A concrete placed tile whose local index 5 is outside `ts2`. -/
def tileBad : LayerTile := { tileA with id := 5 }

/-- Variant of `mapOrtho` with a map model that resolves every GID to `tileA`. -/
def mapDraw : RMap := { mapOrtho with tileGIDToTile := fun _ => Except.ok tileA }

/-- A concrete visible tile object at `(3, 4)` of natural size, unrotated. -/
def obj1 : Object :=
  { x := 3, y := 4, width := 16, height := 16, rotation := 0, gid := 7, visible := true }

/-- A placeholder draw op for indexing into a draw trace. -/
def dummyOp : DrawOp := { img := Img.decoded "", geom := GeoM.identity, alpha := 1 }

/-- Objects at `(Y=5,X=10)`, `(Y=3,X=1)`, `(Y=5,X=2)` — the spec's sorting
example. -/
def objY5X10 : Object :=
  { x := 10, y := 5, width := 16, height := 16, rotation := 0, gid := 1, visible := true }

/-- Second object of the spec's sorting example. -/
def objY3X1 : Object :=
  { x := 1, y := 3, width := 16, height := 16, rotation := 0, gid := 2, visible := true }

/-- Third object of the spec's sorting example. -/
def objY5X2 : Object :=
  { x := 2, y := 5, width := 16, height := 16, rotation := 0, gid := 3, visible := true }

/-- C1: for every cell `(x, y)`, the orthogonal engine's `GetTilePosition`
acts on points as the translation to `(x*tileWidth, y*tileHeight)` followed
by the scale with factors `((x+1)*tileWidth, (y+1)*tileHeight)`, reproducing
the source's scale step exactly. -/
theorem c1_cell_transform_is_translate_then_scale (m : RMap) (x y : ℤ) (p : ℚ × ℚ) :
    (GetTilePosition m x y).apply p =
      scalePt (((x : ℚ) + 1) * (m.tileWidth : ℚ)) (((y : ℚ) + 1) * (m.tileHeight : ℚ))
        (translatePt ((x : ℚ) * (m.tileWidth : ℚ)) ((y : ℚ) * (m.tileHeight : ℚ)) p) := by
  simp only [GetTilePosition, GeoM.identity, GeoM.translate, GeoM.scale, GeoM.apply,
    translatePt, scalePt]
  push_cast
  rw [Prod.mk.injEq]
  constructor <;> ring

/-- C1 witness: the cell transform at `(2, 3)` on a 16×16-tile map agrees
with translate-then-scale at the concrete point `(5, 7)`. -/
theorem c1_witness :
    (GetTilePosition
      { orientation := "orthogonal", renderOrder := "", width := 4, height := 4,
        tileWidth := 16, tileHeight := 16, layers := [], objectGroups := [],
        groups := [], tileGIDToTile := fun _ => Except.error (RErr.extError "none") }
      2 3).apply (5, 7) =
      scalePt ((2 + 1) * 16) ((3 + 1) * 16) (translatePt (2 * 16) (3 * 16) (5, 7)) :=
  c1_cell_transform_is_translate_then_scale _ 2 3 (5, 7)

/-- C3: the orientation transform applies, in this fixed order, each step
conditional on its flag: diagonal flip (flip-horizontal after a 270°
rotation), then horizontal flip, then vertical flip. -/
theorem c3_orientation_order (tile : LayerTile) (img : Img) :
    RotateTileImage tile img = orientTileSpec tile img := rfl

/-- One more loop iteration is one more cache store. -/
theorem cacheFold_succ (c0 : ℕ → Option Img) (kf : ℕ → ℕ) (vf : ℕ → Img) (n : ℕ) :
    cacheFold c0 kf vf (n + 1) = upd (cacheFold c0 kf vf n) (kf n) (vf n) := by
  simp [cacheFold, List.range_succ]

/-- A key no loop iteration stores to keeps its prior cache entry. -/
theorem cacheFold_miss (c0 : ℕ → Option Img) (kf : ℕ → ℕ) (vf : ℕ → Img) (n k : ℕ)
    (h : ∀ i, i < n → kf i ≠ k) : cacheFold c0 kf vf n k = c0 k := by
  induction n with
  | zero => rfl
  | succ n ih =>
    rw [cacheFold_succ, upd, if_neg]
    · exact ih (fun i hi => h i (by omega))
    · intro he
      exact h n (by omega) he.symm

/-- With injective keys, a key stored by iteration `i` holds `vf i` after
the loop. -/
theorem cacheFold_hit (c0 : ℕ → Option Img) (kf : ℕ → ℕ) (vf : ℕ → Img) (n i k : ℕ)
    (hinj : ∀ a b, a < n → b < n → kf a = kf b → a = b) (hi : i < n) (hky : kf i = k) :
    cacheFold c0 kf vf n k = some (vf i) := by
  induction n with
  | zero => omega
  | succ n ih =>
    rw [cacheFold_succ, upd]
    by_cases he : i = n
    · subst he
      rw [if_pos hky.symm]
    · rw [if_neg]
      · exact ih (fun a b ha hb => hinj a b (by omega) (by omega)) (by omega)
      · intro hk
        exact he (hinj i n (by omega) (by omega) (hky.trans hk))

/-- On a cache miss for a shared-image tileset, `getTileImage` dispatches to
the shared-image strategy. -/
theorem getTileImage_miss_shared (env : Env) (s : RState) (tile : LayerTile) (src : String)
    (himg : tile.tileset.image = some src)
    (hmiss : s.tileCache (u32 (tile.tileset.firstGID + tile.id)) = none) :
    getTileImage env s tile = getTileImageFromTileset env s tile := by
  unfold getTileImage
  rw [hmiss, himg]

/-- A failed open/decode makes the shared-image strategy return the wrapped
error, leaving the tile cache untouched (only the open trace grows). -/
theorem getTileImageFromTileset_decode_err (env : Env) (s : RState) (tile : LayerTile)
    (src : String) (e : String) (himg : tile.tileset.image = some src)
    (hdec : env.decodeFile (tile.tileset.getFileFullPath src) = Except.error e) :
    getTileImageFromTileset env s tile =
      ({ s with opens := s.opens ++ [tile.tileset.getFileFullPath src] },
        Except.error (RErr.ioError e)) := by
  unfold getTileImageFromTileset
  rw [himg]
  simp only [hdec]

/-- A successful open/decode makes the shared-image strategy precache the
loop's slices; the resulting state is the same whether or not the requested
local index was found. -/
theorem getTileImageFromTileset_decode_ok_fst (env : Env) (s : RState) (tile : LayerTile)
    (src : String) (img0 : Img) (himg : tile.tileset.image = some src)
    (hdec : env.decodeFile (tile.tileset.getFileFullPath src) = Except.ok img0) :
    (getTileImageFromTileset env s tile).1 =
      { s with
        opens := s.opens ++ [tile.tileset.getFileFullPath src],
        tileCache := cacheFold s.tileCache (fun i => u32 (i + tile.tileset.firstGID))
          (fun i => Img.sub (Img.fromImage img0) (tile.tileset.getTileRect i))
          (u32 tile.tileset.tileCount) } := by
  unfold getTileImageFromTileset
  rw [himg]
  simp only [hdec]
  by_cases hlt : tile.id < u32 tile.tileset.tileCount
  · rw [if_pos hlt]
  · rw [if_neg hlt]

/-- C2: for a shared-image tileset referenced by one layer tile, a single
successful resolution call through the renderer's tile-image path, starting
from an empty tile cache, leaves exactly `tileCount` cache entries for that
tileset, keyed by the global IDs `firstGID` through
`firstGID + tileCount - 1`. -/
theorem c2_shared_tileset_precache (env : Env) (s : RState) (tile : LayerTile) (src : String)
    (himg : tile.tileset.image = some src)
    (hcache : s.tileCache = fun _ => none)
    (htc : tile.tileset.tileCount < 4294967296)
    (hfg : tile.tileset.firstGID + tile.tileset.tileCount ≤ 4294967296)
    (hok : ∃ img, (getTileImage env s tile).2 = Except.ok img) :
    ∀ k, ((getTileImage env s tile).1.tileCache k).isSome = true ↔
      (tile.tileset.firstGID ≤ k ∧
        k < tile.tileset.firstGID + tile.tileset.tileCount) := by
  obtain ⟨img, hok⟩ := hok
  have hmiss : s.tileCache (u32 (tile.tileset.firstGID + tile.id)) = none := by
    rw [hcache]
  have h1 := getTileImage_miss_shared env s tile src himg hmiss
  cases hdec : env.decodeFile (tile.tileset.getFileFullPath src) with
  | error e =>
    rw [h1, getTileImageFromTileset_decode_err env s tile src e himg hdec] at hok
    simp at hok
  | ok img0 =>
    rw [h1, getTileImageFromTileset_decode_ok_fst env s tile src img0 himg hdec]
    intro k
    have hn : u32 tile.tileset.tileCount = tile.tileset.tileCount := Nat.mod_eq_of_lt htc
    simp only [hn, hcache]
    by_cases hk : tile.tileset.firstGID ≤ k ∧
        k < tile.tileset.firstGID + tile.tileset.tileCount
    · obtain ⟨hk1, hk2⟩ := hk
      have hinj : ∀ a b, a < tile.tileset.tileCount → b < tile.tileset.tileCount →
          u32 (a + tile.tileset.firstGID) = u32 (b + tile.tileset.firstGID) → a = b := by
        intro a b ha hb hab
        rw [u32, u32, Nat.mod_eq_of_lt (by omega), Nat.mod_eq_of_lt (by omega)] at hab
        omega
      have hkey : u32 (k - tile.tileset.firstGID + tile.tileset.firstGID) = k := by
        rw [u32, Nat.mod_eq_of_lt (by omega)]
        omega
      have hhit := cacheFold_hit (fun _ => none)
        (fun i => u32 (i + tile.tileset.firstGID))
        (fun i => Img.sub (Img.fromImage img0) (tile.tileset.getTileRect i))
        tile.tileset.tileCount (k - tile.tileset.firstGID) k hinj (by omega) hkey
      rw [hhit]
      simp [hk1, hk2]
    · have hnone : ∀ i, i < tile.tileset.tileCount →
          u32 (i + tile.tileset.firstGID) ≠ k := by
        intro i hi he
        rw [u32, Nat.mod_eq_of_lt (by omega)] at he
        exact hk (by omega)
      rw [cacheFold_miss _ _ _ _ _ hnone]
      simp only [Option.isSome_none, Bool.false_eq_true, false_iff]
      exact hk

/-- C2 witness: resolving tile 0 of the two-tile shared-image tileset `ts2`
(first GID 1) from a fresh state caches global ID 1. -/
theorem c2_witness :
    ((getTileImage env0 s0 tileA).1.tileCache 1).isSome = true :=
  (c2_shared_tileset_precache env0 s0 tileA "tiles.png" rfl rfl (by decide) (by decide)
    ⟨RotateTileImage tileA (Img.fromImage (Img.sub (Img.fromImage (Img.decoded "tiles.png"))
      (ts2.getTileRect 0))), rfl⟩ 1).mpr (by decide)

/-- A failed open/decode makes `cacheTileset` return the wrapped error,
leaving the name-keyed cache untouched (only the open trace grows). -/
theorem cacheTileset_decode_err (env : Env) (t : TilesetCacheState) (ts : Tileset)
    (src e : String) (himg : ts.image = some src)
    (hdec : env.decodeFile (ts.getFileFullPath src) = Except.error e) :
    cacheTileset env t ts =
      ({ t with opens := t.opens ++ [ts.getFileFullPath src] },
        Except.error (RErr.ioError e)) := by
  unfold cacheTileset
  rw [himg]
  simp only [hdec]

/-- A successful open/decode makes `cacheTileset` store the loop's slice map
under the tileset's name. -/
theorem cacheTileset_decode_ok (env : Env) (t : TilesetCacheState) (ts : Tileset)
    (src : String) (img0 : Img) (himg : ts.image = some src)
    (hdec : env.decodeFile (ts.getFileFullPath src) = Except.ok img0) :
    cacheTileset env t ts =
      (TilesetCacheState.mk
        (fun n => if n = ts.name then
          some (cacheFold (fun _ => none) (fun i => i)
            (fun i => Img.sub (Img.fromImage img0) (ts.getTileRect i)) (u32 ts.tileCount))
          else t.cache n)
        (t.opens ++ [ts.getFileFullPath src]),
        Except.ok ()) := by
  unfold cacheTileset
  rw [himg]
  simp only [hdec]

/-- C9: a layer tile whose local index is not among `0 .. tileCount - 1` of a
tileset already cached in `TilesetCache` gets back a `nil` image together
with a `nil` error from `TilesetCache.GetTileImage`. -/
theorem c9_absent_local_index_nil_nil (env : Env) (t t' : TilesetCacheState)
    (tile : LayerTile)
    (hcc : cacheTileset env t tile.tileset = (t', Except.ok ()))
    (htc : tile.tileset.tileCount < 4294967296)
    (hid : tile.tileset.tileCount ≤ tile.id) :
    tcGetTileImage env t' tile = (t', Except.ok none) := by
  cases himg : tile.tileset.image with
  | none =>
    unfold cacheTileset at hcc
    rw [himg] at hcc
    simp at hcc
  | some src =>
    cases hdec : env.decodeFile (tile.tileset.getFileFullPath src) with
    | error e =>
      rw [cacheTileset_decode_err env t tile.tileset src e himg hdec] at hcc
      simp at hcc
    | ok img0 =>
      rw [cacheTileset_decode_ok env t tile.tileset src img0 himg hdec] at hcc
      have ht' : t' = TilesetCacheState.mk
          (fun n => if n = tile.tileset.name then
            some (cacheFold (fun _ => none) (fun i => i)
              (fun i => Img.sub (Img.fromImage img0) (tile.tileset.getTileRect i))
              (u32 tile.tileset.tileCount))
            else t.cache n)
          (t.opens ++ [tile.tileset.getFileFullPath src]) :=
        ((Prod.ext_iff.mp hcc).1).symm
      have hlook : t'.cache tile.tileset.name =
          some (cacheFold (fun _ => none) (fun i => i)
            (fun i => Img.sub (Img.fromImage img0) (tile.tileset.getTileRect i))
            (u32 tile.tileset.tileCount)) := by
        rw [ht']
        simp
      have hnone : cacheFold (fun _ => none) (fun i => i)
          (fun i => Img.sub (Img.fromImage img0) (tile.tileset.getTileRect i))
          (u32 tile.tileset.tileCount) tile.id = none := by
        apply cacheFold_miss
        intro i hi
        have : u32 tile.tileset.tileCount = tile.tileset.tileCount := Nat.mod_eq_of_lt htc
        omega
      unfold tcGetTileImage
      rw [hlook]
      simp only [hnone]

/-- C9 witness: after caching the two-tile tileset `ts2`, requesting local
index 5 yields `none` with no error. -/
theorem c9_witness :
    tcGetTileImage env0 (cacheTileset env0 tc0 ts2).1 tileBad =
      ((cacheTileset env0 tc0 ts2).1, Except.ok none) :=
  c9_absent_local_index_nil_nil env0 tc0 (cacheTileset env0 tc0 ts2).1 tileBad rfl
    (by decide) (by decide)

/-- C8: when the tileset's source image cannot be opened or decoded, the
tile-image resolution call returns the wrapped decode error and the tile
cache is unchanged by the failed call, so a subsequent call for the same
tile re-attempts the open and decode (the open trace grows again); likewise
for `TilesetCache.cacheTileset`. -/
theorem c8_decode_failure_not_cached (env : Env) :
    (∀ (s : RState) (tile : LayerTile) (src e : String),
      tile.tileset.image = some src →
      s.tileCache (u32 (tile.tileset.firstGID + tile.id)) = none →
      env.decodeFile (tile.tileset.getFileFullPath src) = Except.error e →
      getTileImage env s tile =
        ({ s with opens := s.opens ++ [tile.tileset.getFileFullPath src] },
          Except.error (RErr.ioError e)) ∧
      getTileImage env { s with opens := s.opens ++ [tile.tileset.getFileFullPath src] } tile =
        ({ s with
            opens := (s.opens ++ [tile.tileset.getFileFullPath src])
              ++ [tile.tileset.getFileFullPath src] },
          Except.error (RErr.ioError e))) ∧
    (∀ (t : TilesetCacheState) (ts : Tileset) (src e : String),
      ts.image = some src →
      env.decodeFile (ts.getFileFullPath src) = Except.error e →
      cacheTileset env t ts =
        ({ t with opens := t.opens ++ [ts.getFileFullPath src] },
          Except.error (RErr.ioError e))) := by
  constructor
  · intro s tile src e himg hmiss hdec
    constructor
    · rw [getTileImage_miss_shared env s tile src himg hmiss,
        getTileImageFromTileset_decode_err env s tile src e himg hdec]
    · have hmiss2 : ({ s with opens := s.opens ++ [tile.tileset.getFileFullPath src] }
          : RState).tileCache (u32 (tile.tileset.firstGID + tile.id)) = none := hmiss
      rw [getTileImage_miss_shared env _ tile src himg hmiss2,
        getTileImageFromTileset_decode_err env _ tile src e himg hdec]
  · intro t ts src e himg hdec
    exact cacheTileset_decode_err env t ts src e himg hdec

/-- C8 witness: with a failing decoder, resolving tile 0 of `ts2` from a
fresh state returns the wrapped error and leaves the cache empty, with the
open logged. -/
theorem c8_witness :
    getTileImage envFail s0 tileA =
      ({ s0 with opens := ["tiles.png"] }, Except.error (RErr.ioError "decode failure")) :=
  ((c8_decode_failure_not_cached envFail).1 s0 tileA "tiles.png" "decode failure"
    rfl rfl rfl).1

/-- C7: an object that is invisible or has GID 0 produces no draw call and
no error — `renderOneObject` returns the state unchanged with a nil error. -/
theorem c7_skip_invisible_or_gid_zero (m : RMap) (env : Env) (s : RState)
    (layer : ObjectGroup) (o : Object)
    (h : o.visible = false ∨ o.gid = 0) :
    renderOneObject m env s layer o = (s, Except.ok ()) := by
  rcases h with h | h
  · simp [renderOneObject, h]
  · by_cases hv : o.visible = false
    · simp [renderOneObject, hv]
    · simp [renderOneObject, hv, h]

/-- C7 witness: an invisible object and a GID-0 object are both skipped
silently. -/
theorem c7_witness :
    renderOneObject mapDraw env0 s0 emptyObjectGroup { obj1 with visible := false } =
      (s0, Except.ok ()) ∧
    renderOneObject mapDraw env0 s0 emptyObjectGroup { obj1 with gid := 0 } =
      (s0, Except.ok ()) :=
  ⟨c7_skip_invisible_or_gid_zero mapDraw env0 s0 emptyObjectGroup _ (Or.inl rfl),
   c7_skip_invisible_or_gid_zero mapDraw env0 s0 emptyObjectGroup _ (Or.inr rfl)⟩

/-- C4: constructing a renderer for a map whose orientation is not
`"orthogonal"` fails with the unsupported-orientation error (through both
constructors), and a successful orthogonal construction starts with no draw
calls and no file opens (no rendering, no asset I/O). -/
theorem c4_construction_orientation_check (m : RMap) :
    (m.orientation ≠ "orthogonal" →
      NewRendererWithFileSystem m = Except.error RErr.unsupportedOrientation ∧
      NewRenderer m = Except.error RErr.unsupportedOrientation) ∧
    (m.orientation = "orthogonal" →
      ∃ r st, NewRendererWithFileSystem m = Except.ok (r, st) ∧
        st.opens = [] ∧ st.draws = [] ∧ st.tileCache = fun _ => none) := by
  constructor
  · intro h
    constructor
    · simp [NewRendererWithFileSystem, h]
    · simp [NewRenderer, NewRendererWithFileSystem, h]
  · intro h
    refine ⟨{ m := m, canvasSize := GetFinalImageSize m },
      { tileCache := fun _ => none, draws := [], opens := [] }, ?_, rfl, rfl, rfl⟩
    simp [NewRendererWithFileSystem, h]

/-- C4 witness: the isometric map is rejected, the orthogonal one accepted
with a clean initial state. -/
theorem c4_witness :
    NewRendererWithFileSystem mapIso = Except.error RErr.unsupportedOrientation ∧
    ∃ r st, NewRendererWithFileSystem mapOrtho = Except.ok (r, st) ∧
      st.opens = [] ∧ st.draws = [] ∧ st.tileCache = fun _ => none :=
  ⟨((c4_construction_orientation_check mapIso).1 (by decide)).1,
   (c4_construction_orientation_check mapOrtho).2 rfl⟩

/-- C6: every indexed render accessor called with an index at or beyond the
length of the corresponding sequence returns the out-of-bounds error and
leaves the state — in particular the canvas's draw trace — unchanged. -/
theorem c6_bounds_checks (m : RMap) (env : Env) (s : RState) :
    (∀ id1, m.layers.length ≤ id1 →
      RenderLayer m env s id1 = (s, Except.error RErr.outOfBounds)) ∧
    (∀ gid, m.groups.length ≤ gid →
      RenderGroup m env s gid = (s, Except.error RErr.outOfBounds)) ∧
    (∀ gid lid, m.groups.length ≤ gid →
      RenderGroupLayer m env s gid lid = (s, Except.error RErr.outOfBounds)) ∧
    (∀ gid lid, (m.groups.getD gid emptyTGroup).layers.length ≤ lid →
      RenderGroupLayer m env s gid lid = (s, Except.error RErr.outOfBounds)) ∧
    (∀ oid, m.objectGroups.length ≤ oid →
      RenderObjectGroup m env s oid = (s, Except.error RErr.outOfBounds)) ∧
    (∀ gid ogid, m.groups.length ≤ gid →
      RenderGroupObjectGroup m env s gid ogid = (s, Except.error RErr.outOfBounds)) ∧
    (∀ gid ogid, (m.groups.getD gid emptyTGroup).objectGroups.length ≤ ogid →
      RenderGroupObjectGroup m env s gid ogid = (s, Except.error RErr.outOfBounds)) := by
  refine ⟨?_, ?_, ?_, ?_, ?_, ?_, ?_⟩
  · intro id1 h
    simp [RenderLayer, h]
  · intro gid h
    simp [RenderGroup, h]
  · intro gid lid h
    simp [RenderGroupLayer, h]
  · intro gid lid h
    unfold RenderGroupLayer
    split_ifs with h1 <;> rfl
  · intro oid h
    simp [RenderObjectGroup, h]
  · intro gid ogid h
    simp [RenderGroupObjectGroup, h]
  · intro gid ogid h
    unfold RenderGroupObjectGroup
    split_ifs with h1 <;> rfl

/-- C6 witness: on a map with no layers, groups or object groups, index 0 is
already out of bounds for every accessor. -/
theorem c6_witness :
    RenderLayer mapOrtho env0 s0 0 = (s0, Except.error RErr.outOfBounds) ∧
    RenderGroup mapOrtho env0 s0 0 = (s0, Except.error RErr.outOfBounds) ∧
    RenderGroupLayer mapOrtho env0 s0 0 0 = (s0, Except.error RErr.outOfBounds) ∧
    RenderObjectGroup mapOrtho env0 s0 0 = (s0, Except.error RErr.outOfBounds) ∧
    RenderGroupObjectGroup mapOrtho env0 s0 0 0 = (s0, Except.error RErr.outOfBounds) :=
  ⟨(c6_bounds_checks mapOrtho env0 s0).1 0 (by decide),
   (c6_bounds_checks mapOrtho env0 s0).2.1 0 (by decide),
   (c6_bounds_checks mapOrtho env0 s0).2.2.1 0 0 (by decide),
   (c6_bounds_checks mapOrtho env0 s0).2.2.2.2.1 0 (by decide),
   (c6_bounds_checks mapOrtho env0 s0).2.2.2.2.2.1 0 0 (by decide)⟩

/-- Tile-image resolution through the per-tile-image strategy never draws. -/
theorem getTileImageFromTile_draws_eq (env : Env) (s : RState) (tile : LayerTile) :
    (getTileImageFromTile env s tile).1.draws = s.draws := by
  simp only [getTileImageFromTile]
  split
  · rfl
  · split
    · rfl
    · rfl

/-- Tile-image resolution through the shared-image strategy never draws. -/
theorem getTileImageFromTileset_draws_eq (env : Env) (s : RState) (tile : LayerTile) :
    (getTileImageFromTileset env s tile).1.draws = s.draws := by
  simp only [getTileImageFromTileset]
  split
  · rfl
  · split
    · rfl
    · split
      · rfl
      · rfl

/-- Tile-image resolution never draws: it can touch only the tile cache and
the open trace. -/
theorem getTileImage_draws_eq (env : Env) (s : RState) (tile : LayerTile) :
    (getTileImage env s tile).1.draws = s.draws := by
  unfold getTileImage
  split
  · rfl
  · split
    · exact getTileImageFromTile_draws_eq env s tile
    · exact getTileImageFromTileset_draws_eq env s tile

/-- The object draw geometry has no translation component. -/
theorem objectGeoM_no_translation (env : Env) (o : Object) (srcW srcH : ℤ) :
    (objectGeoM env o srcW srcH).tx = 0 ∧ (objectGeoM env o srcW srcH).ty = 0 := by
  simp only [objectGeoM]
  split_ifs <;> simp [GeoM.identity, GeoM.scale, GeoM.rotate]

/-- C10: the draw transform built by `renderOneObject` is only an optional
scale followed by an optional rotation, with no translation component — the
object's X and Y fields do not influence the call at all, so every drawn
object lands at the canvas origin. -/
theorem c10_object_geom_no_translation (m : RMap) (env : Env) (s : RState)
    (layer : ObjectGroup) (o : Object) :
    (∀ srcW srcH : ℤ,
      (objectGeoM env o srcW srcH).tx = 0 ∧ (objectGeoM env o srcW srcH).ty = 0) ∧
    (∀ x2 y2 : ℚ,
      renderOneObject m env s layer { o with x := x2, y := y2 } =
        renderOneObject m env s layer o) ∧
    (∀ op, op ∈ (renderOneObject m env s layer o).1.draws →
      op ∈ s.draws ∨ (op.geom.tx = 0 ∧ op.geom.ty = 0)) := by
  refine ⟨fun srcW srcH => objectGeoM_no_translation env o srcW srcH, ?_, ?_⟩
  · intro x2 y2
    cases o
    rfl
  · intro op hop
    unfold renderOneObject at hop
    split_ifs at hop with h1 h2
    · exact Or.inl hop
    · exact Or.inl hop
    · revert hop
      split
      · intro hop
        exact Or.inl hop
      · rename_i tile heqTile
        split
        · rename_i s1 e heq
          intro hop
          have hdr : s1.draws = s.draws := by
            have h3 := getTileImage_draws_eq env s tile
            rw [heq] at h3
            exact h3
          exact Or.inl (hdr ▸ hop)
        · rename_i s1 img heq
          intro hop
          have hdr : s1.draws = s.draws := by
            have h3 := getTileImage_draws_eq env s tile
            rw [heq] at h3
            exact h3
          simp only [hdr] at hop
          rcases List.mem_append.mp hop with hmem | hmem
          · exact Or.inl hmem
          · rcases List.mem_singleton.mp hmem with rfl
            exact Or.inr (objectGeoM_no_translation env o _ _)

/-- C10 witness: rendering a concrete visible tile object at `(3, 4)` makes
exactly one draw call whose geometry has zero translation, and moving the
object to `(99, 98)` changes nothing about the call. -/
theorem c10_witness :
    ((renderOneObject mapDraw env0 s0 emptyObjectGroup obj1).1.draws.getD 0 dummyOp).geom.tx
        = 0 ∧
    ((renderOneObject mapDraw env0 s0 emptyObjectGroup obj1).1.draws.getD 0 dummyOp).geom.ty
        = 0 ∧
    (renderOneObject mapDraw env0 s0 emptyObjectGroup obj1).1.draws.length = 1 ∧
    renderOneObject mapDraw env0 s0 emptyObjectGroup { obj1 with x := 99, y := 98 } =
      renderOneObject mapDraw env0 s0 emptyObjectGroup obj1 := by
  have h := c10_object_geom_no_translation mapDraw env0 s0 emptyObjectGroup obj1
  have hop := h.2.2 ((renderOneObject mapDraw env0 s0 emptyObjectGroup obj1).1.draws.getD 0
    dummyOp) (by decide)
  have hz := hop.resolve_left (by decide)
  exact ⟨hz.1, hz.2, by decide, h.2.1 99 98⟩

/-- Stable insertion is a permutation of consing. -/
theorem insertOrdered_perm {α : Type} (less : α → α → Bool) (a : α) (l : List α) :
    List.Perm (insertOrdered less a l) (a :: l) := by
  induction l with
  | nil => exact List.Perm.refl _
  | cons b l ih =>
    unfold insertOrdered
    by_cases h : less b a
    · rw [if_pos h]
      exact (ih.cons b).trans (List.Perm.swap a b l)
    · rw [if_neg h]

/-- The spec-modelled stable sort permutes its input. -/
theorem sortAnySlice_perm {α : Type} (less : α → α → Bool) (l : List α) :
    List.Perm (SortAnySlice less l) l := by
  induction l with
  | nil => exact List.Perm.refl _
  | cons a l ih =>
    exact (insertOrdered_perm less a (SortAnySlice less l)).trans (ih.cons a)

/-- Inserting into a list sorted by "not greater" keeps it sorted, for an
asymmetric, negatively transitive comparator. -/
theorem sorted_insertOrdered {α : Type} (less : α → α → Bool)
    (hasymm : ∀ x y, less x y = true → less y x = false)
    (hneg : ∀ x y z, less y x = false → less z y = false → less z x = false)
    (a : α) (l : List α) (hl : List.Sorted (fun x y => less y x = false) l) :
    List.Sorted (fun x y => less y x = false) (insertOrdered less a l) := by
  induction l with
  | nil => simp [insertOrdered]
  | cons b l ih =>
    rw [List.sorted_cons] at hl
    obtain ⟨hb, hl⟩ := hl
    unfold insertOrdered
    by_cases h : less b a
    · rw [if_pos h, List.sorted_cons]
      refine ⟨?_, ih hl⟩
      intro c hc
      rcases List.mem_cons.mp ((insertOrdered_perm less a l).mem_iff.mp hc) with hca | hcl
      · subst hca
        exact hasymm b c h
      · exact hb c hcl
    · rw [if_neg h, List.sorted_cons]
      have h' : less b a = false := by
        cases hba : less b a
        · rfl
        · exact absurd hba h
      refine ⟨?_, List.sorted_cons.mpr ⟨hb, hl⟩⟩
      intro c hc
      rcases List.mem_cons.mp hc with hcb | hcl
      · subst hcb
        exact h'
      · exact hneg a b c h' (hb c hcl)

/-- The spec-modelled stable sort sorts by "not greater", for an asymmetric,
negatively transitive comparator. -/
theorem sorted_sortAnySlice {α : Type} (less : α → α → Bool)
    (hasymm : ∀ x y, less x y = true → less y x = false)
    (hneg : ∀ x y z, less y x = false → less z y = false → less z x = false)
    (l : List α) :
    List.Sorted (fun x y => less y x = false) (SortAnySlice less l) := by
  induction l with
  | nil => simp [SortAnySlice]
  | cons a l ih => exact sorted_insertOrdered less hasymm hneg a _ ih

/-- The object comparator holds exactly on the strict lexicographic painter
order. -/
theorem objLess_iff (a b : Object) :
    objLess a b = true ↔ (a.y < b.y ∨ (a.y = b.y ∧ a.x < b.x)) := by
  simp only [objLess]
  by_cases hy : a.y = b.y
  · simp [hy]
  · simp [hy]

/-- The object comparator is false exactly off the strict painter order. -/
theorem objLess_false_iff (a b : Object) :
    objLess a b = false ↔ ¬(a.y < b.y ∨ (a.y = b.y ∧ a.x < b.x)) := by
  rw [← objLess_iff]
  cases h : objLess a b <;> simp

/-- The object comparator is asymmetric. -/
theorem objLess_asymm (x y : Object) (h : objLess x y = true) : objLess y x = false := by
  rcases (objLess_iff x y).mp h with h1 | ⟨h1, h2⟩ <;>
    (rw [objLess_false_iff]; rintro (h3 | ⟨h3, h4⟩) <;> linarith)

/-- The object comparator is negatively transitive. -/
theorem objLess_neg_trans (x y z : Object) (h1 : objLess y x = false)
    (h2 : objLess z y = false) : objLess z x = false := by
  rw [objLess_false_iff] at h1 h2 ⊢
  push_neg at h1 h2 ⊢
  obtain ⟨h1a, h1b⟩ := h1
  obtain ⟨h2a, h2b⟩ := h2
  refine ⟨by linarith, ?_⟩
  intro he
  have hyy : y.y = x.y := by linarith
  have hzy : z.y = y.y := by linarith
  have hx1 := h1b hyy
  have hx2 := h2b hzy
  linarith

/-- Two objects neither of which precedes the other share both sort keys. -/
theorem objLess_both_false (a b : Object) (h1 : objLess a b = false)
    (h2 : objLess b a = false) : a.y = b.y ∧ a.x = b.x := by
  rw [objLess_false_iff] at h1 h2
  push_neg at h1 h2
  obtain ⟨h1a, h1b⟩ := h1
  obtain ⟨h2a, h2b⟩ := h2
  have hy : a.y = b.y := by linarith
  have hx1 := h1b hy
  have hx2 := h2b hy.symm
  exact ⟨hy, by linarith⟩

/-- Two sorted permutations of each other agree, given antisymmetry on the
elements actually present. -/
theorem sorted_perm_eq {α : Type} {r : α → α → Prop} :
    ∀ l1 l2 : List α, List.Perm l1 l2 → List.Sorted r l1 → List.Sorted r l2 →
      (∀ a b, a ∈ l1 → b ∈ l1 → r a b → r b a → a = b) → l1 = l2 := by
  intro l1
  induction l1 with
  | nil =>
    intro l2 p _ _ _
    exact p.nil_eq
  | cons a l1 ih =>
    intro l2 p s1 s2 hanti
    cases l2 with
    | nil => exact absurd p.eq_nil (by simp)
    | cons b l2 =>
      rw [List.sorted_cons] at s1 s2
      have hab : a = b := by
        by_cases he : a = b
        · exact he
        · have hb1 : b ∈ l1 := by
            rcases List.mem_cons.mp (p.mem_iff.mpr (List.mem_cons_self b l2)) with h | h
            · exact absurd h.symm he
            · exact h
          have ha2 : a ∈ l2 := by
            rcases List.mem_cons.mp (p.mem_iff.mp (List.mem_cons_self a l1)) with h | h
            · exact absurd h he
            · exact h
          exact hanti a b (List.mem_cons_self a l1) (List.mem_cons.mpr (Or.inr hb1))
            (s1.1 b hb1) (s2.1 a ha2)
      subst hab
      rw [ih l2 p.cons_inv s1.2 s2.2
        (fun x y hx hy => hanti x y (List.mem_cons.mpr (Or.inr hx))
          (List.mem_cons.mpr (Or.inr hy)))]

/-- C5: `_renderObjectGroup` renders the objects in the order of the stable
sort by ascending Y with ties by ascending X; the sorted sequence is a
permutation of the group's objects, is sorted in painter order, and — for
objects with pairwise distinct `(Y, X)` keys — does not depend on the
original input order. -/
theorem c5_painter_order_sort :
    (∀ (m : RMap) (env : Env) (s : RState) (og : ObjectGroup),
      renderObjectGroupImpl m env s og =
        renderObjects m env og s (SortAnySlice objLess og.objects)) ∧
    (∀ l : List Object, List.Perm (SortAnySlice objLess l) l ∧
      List.Sorted painterLE (SortAnySlice objLess l)) ∧
    (∀ l1 l2 : List Object, List.Perm l1 l2 →
      l1.Pairwise (fun a b => (a.y, a.x) ≠ (b.y, b.x)) →
      SortAnySlice objLess l1 = SortAnySlice objLess l2) := by
  refine ⟨fun m env s og => rfl, ?_, ?_⟩
  · intro l
    exact ⟨sortAnySlice_perm objLess l,
      sorted_sortAnySlice objLess objLess_asymm objLess_neg_trans l⟩
  · intro l1 l2 p hpw
    apply sorted_perm_eq _ _
      ((sortAnySlice_perm objLess l1).trans (p.trans (sortAnySlice_perm objLess l2).symm))
      (sorted_sortAnySlice objLess objLess_asymm objLess_neg_trans l1)
      (sorted_sortAnySlice objLess objLess_asymm objLess_neg_trans l2)
    intro a b ha hb hr1 hr2
    have ha1 : a ∈ l1 := (sortAnySlice_perm objLess l1).mem_iff.mp ha
    have hb1 : b ∈ l1 := (sortAnySlice_perm objLess l1).mem_iff.mp hb
    have hkeys := objLess_both_false a b hr2 hr1
    by_contra hne
    have hsym : Symmetric (fun a b : Object => (a.y, a.x) ≠ (b.y, b.x)) := by
      intro x y hxy hyx
      exact hxy hyx.symm
    exact hpw.forall hsym ha1 hb1 hne (by rw [hkeys.1, hkeys.2])

/-- C5 witness: the spec's example — objects at `(Y=5,X=10)`, `(Y=3,X=1)`,
`(Y=5,X=2)` sort to `(Y=3,X=1)`, `(Y=5,X=2)`, `(Y=5,X=10)` from either input
order. -/
theorem c5_witness :
    SortAnySlice objLess [objY5X10, objY3X1, objY5X2] = [objY3X1, objY5X2, objY5X10] ∧
    SortAnySlice objLess [objY5X10, objY3X1, objY5X2] =
      SortAnySlice objLess [objY3X1, objY5X2, objY5X10] :=
  ⟨by decide,
   c5_painter_order_sort.2.2 [objY5X10, objY3X1, objY5X2] [objY3X1, objY5X2, objY5X10]
     (by decide) (by decide)⟩
